import Mathlib

/-!
# Verification of the s3-bucket-tester request-signing and addressing core

Shallow embedding of the Go sources `pkg/config/config.go` (provider
detection, capability registry, warning generation, addressing-style
resolution) and the auth checker (request construction, SigV4/SigV2
signing).  Go strings are modelled by Lean `String` / `List Char`; the
Go standard-library helpers used by the source (`strings.Contains`,
`strings.Split`, `strings.HasPrefix`, `strings.TrimPrefix`,
`net/url.Parse`, `net/http.NewRequest`, `crypto/sha256`, `crypto/hmac`,
`encoding/hex`, `net/url.QueryEscape`) are modelled explicitly below.
-/

namespace S3Tester

/-! ## Go `strings` helpers on `List Char` -/

/-- The character list of the scheme separator `"://"`.  The source only
ever splits endpoint strings on this separator. -/
def sepL : List Char := [':', '/', '/']

/-- Models Go `strings.Contains(s, sub)`: true iff `sub` occurs as a
contiguous substring of `s` (every string contains the empty string). -/
def goContainsL (s sub : List Char) : Bool :=
  match s with
  | [] => sub.isEmpty
  | _ :: cs => sub.isPrefixOf s || goContainsL cs sub

/-- Models Go `strings.Split(s, "://")`: split `s` at every
non-overlapping occurrence of `"://"`, scanning left to right. -/
def goSplitSep : List Char → List (List Char)
  | [] => [[]]
  | c :: cs =>
    if sepL.isPrefixOf (c :: cs) then
      [] :: goSplitSep (cs.drop 2)
    else
      match goSplitSep cs with
      | [] => [[c]]
      | r :: rs => (c :: r) :: rs
termination_by s => s.length
decreasing_by
  · simp only [List.length_drop, List.length_cons]; omega
  · simp only [List.length_cons]; omega

/-- Splits `s` at the first occurrence of `"://"`, returning the parts
before and after it, or `none` when `"://"` does not occur.  Used to
model how `net/url.Parse` separates the scheme from the rest. -/
def breakOnSepL : List Char → Option (List Char × List Char)
  | [] => none
  | c :: cs =>
    if sepL.isPrefixOf (c :: cs) then
      some ([], cs.drop 2)
    else
      match breakOnSepL cs with
      | none => none
      | some (a, b) => some (c :: a, b)

/-- Models Go `strings.TrimPrefix(s, pre)`: drop `pre` when it is a
prefix of `s`, otherwise return `s` unchanged. -/
def goTrimPrefixL (s pre : List Char) : List Char :=
  if pre.isPrefixOf s then s.drop pre.length else s

/-! ## String wrappers -/

/-- Go `strings.Contains` on `String`. -/
def goContains (s sub : String) : Bool := goContainsL s.data sub.data

/-- Go `strings.HasPrefix` on `String`. -/
def goHasPrefix (s pre : String) : Bool := pre.data.isPrefixOf s.data

/-- Go `strings.HasSuffix` on `String`. -/
def goHasSuffix (s suf : String) : Bool := suf.data.isSuffixOf s.data

/-- Go `strings.ToLower`, restricted to ASCII (the detector's patterns
are all ASCII, so the Unicode cases of the Go function never differ on
the inputs that matter). -/
def goToLower (s : String) : String :=
  String.mk (s.data.map fun c => if 'A' ≤ c ∧ c ≤ 'Z' then Char.ofNat (c.toNat + 32) else c)

/-! ## Bytes, UTF-8, hex

Go converts strings to byte slices (`[]byte(s)`) before hashing; bytes
are modelled as `Nat` values `< 256`. -/

/-- UTF-8 encoding of a single character, as Go `[]byte(string)` does. -/
def charUtf8 (c : Char) : List Nat :=
  let n := c.toNat
  if n < 128 then [n]
  else if n < 2048 then [192 ||| (n >>> 6), 128 ||| (n &&& 63)]
  else if n < 65536 then
    [224 ||| (n >>> 12), 128 ||| ((n >>> 6) &&& 63), 128 ||| (n &&& 63)]
  else
    [240 ||| (n >>> 18), 128 ||| ((n >>> 12) &&& 63),
     128 ||| ((n >>> 6) &&& 63), 128 ||| (n &&& 63)]

/-- The UTF-8 bytes of a string: models Go `[]byte(s)`. -/
def strBytes (s : String) : List Nat := s.data.flatMap charUtf8

/-- Lowercase hex digit table, as used by Go `encoding/hex`
(`"0123456789abcdef"`). Inputs `≥ 16` do not occur. -/
def hexDigit : Nat → Char
  | 0 => '0' | 1 => '1' | 2 => '2' | 3 => '3' | 4 => '4'
  | 5 => '5' | 6 => '6' | 7 => '7' | 8 => '8' | 9 => '9'
  | 10 => 'a' | 11 => 'b' | 12 => 'c' | 13 => 'd' | 14 => 'e' | 15 => 'f'
  | _ => '0'

/-- Models Go `hex.EncodeToString` on a byte list: two lowercase hex
digits per byte, high nibble first. -/
def bytesToHexL : List Nat → List Char
  | [] => []
  | b :: bs => hexDigit (b / 16) :: hexDigit (b % 16) :: bytesToHexL bs

/-- String form of `bytesToHexL`. -/
def bytesToHex (bs : List Nat) : String := String.mk (bytesToHexL bs)

/-! ## SHA-256 (Go `crypto/sha256`)

Words are `Nat` values kept below `2^32` by explicit reduction. -/

/-- Addition of two 32-bit words. -/
def wadd (a b : Nat) : Nat := (a + b) % 4294967296

/-- Right rotation of a 32-bit word by `n` bits. -/
def rotr (n x : Nat) : Nat := ((x >>> n) ||| (x <<< (32 - n))) % 4294967296

/-- SHA-256 round constants. -/
def sha256K : List Nat :=
  [1116352408, 1899447441, 3049323471, 3921009573, 961987163, 1508970993,
   2453635748, 2870763221, 3624381080, 310598401, 607225278, 1426881987,
   1925078388, 2162078206, 2614888103, 3248222580, 3835390401, 4022224774,
   264347078, 604807628, 770255983, 1249150122, 1555081692, 1996064986,
   2554220882, 2821834349, 2952996808, 3210313671, 3336571891, 3584528711,
   113926993, 338241895, 666307205, 773529912, 1294757372, 1396182291,
   1695183700, 1986661051, 2177026350, 2456956037, 2730485921, 2820302411,
   3259730800, 3345764771, 3516065817, 3600352804, 4094571909, 275423344,
   430227734, 506948616, 659060556, 883997877, 958139571, 1322822218,
   1537002063, 1747873779, 1955562222, 2024104815, 2227730452, 2361852424,
   2428436474, 2756734187, 3204031479, 3329325298]

/-- Big sigma 0. -/
def bsig0 (x : Nat) : Nat := rotr 2 x ^^^ rotr 13 x ^^^ rotr 22 x

/-- Big sigma 1. -/
def bsig1 (x : Nat) : Nat := rotr 6 x ^^^ rotr 11 x ^^^ rotr 25 x

/-- Small sigma 0. -/
def ssig0 (x : Nat) : Nat := rotr 7 x ^^^ rotr 18 x ^^^ (x >>> 3)

/-- Small sigma 1. -/
def ssig1 (x : Nat) : Nat := rotr 17 x ^^^ rotr 19 x ^^^ (x >>> 10)

/-- Choice function. -/
def chf (x y z : Nat) : Nat := (x &&& y) ^^^ ((x ^^^ 4294967295) &&& z)

/-- Majority function. -/
def majf (x y z : Nat) : Nat := (x &&& y) ^^^ (x &&& z) ^^^ (y &&& z)

/-- The eight working variables of the SHA-256 compression function. -/
structure Sha256St where
  a : Nat
  b : Nat
  c : Nat
  d : Nat
  e : Nat
  f : Nat
  g : Nat
  h : Nat

/-- Initial SHA-256 hash state. -/
def sha256Init : Sha256St :=
  ⟨1779033703, 3144134277, 1013904242, 2773480762,
   1359893119, 2600822924, 528734635, 1541459225⟩

/-- Big-endian 32-bit words from a byte list (16 words per chunk). -/
def bytesToWords : List Nat → List Nat
  | b0 :: b1 :: b2 :: b3 :: rest =>
    (b0 * 16777216 + b1 * 65536 + b2 * 256 + b3) % 4294967296 :: bytesToWords rest
  | _ => []

/-- One message-schedule extension step: appends word `w[i]` computed
from `w[i-2]`, `w[i-7]`, `w[i-15]`, `w[i-16]`. -/
def schedStep (w : List Nat) : List Nat :=
  w ++ [wadd (wadd (ssig1 (w.getD (w.length - 2) 0)) (w.getD (w.length - 7) 0))
             (wadd (ssig0 (w.getD (w.length - 15) 0)) (w.getD (w.length - 16) 0))]

/-- Extend the 16 chunk words to the 64 schedule words. -/
def sha256Sched (w : List Nat) : List Nat := schedStep^[48] w

/-- One SHA-256 round for round constant `k` and schedule word `w`. -/
def sha256Round (st : Sha256St) (kw : Nat × Nat) : Sha256St :=
  let t1 := wadd (wadd (wadd st.h (bsig1 st.e)) (wadd (chf st.e st.f st.g) kw.1)) kw.2
  let t2 := wadd (bsig0 st.a) (majf st.a st.b st.c)
  ⟨wadd t1 t2, st.a, st.b, st.c, wadd st.d t1, st.e, st.f, st.g⟩

/-- Compress a 64-byte chunk into the running hash state. -/
def sha256Compress (st : Sha256St) (chunk : List Nat) : Sha256St :=
  let w := sha256Sched (bytesToWords chunk)
  let t := (sha256K.zip w).foldl sha256Round st
  ⟨wadd st.a t.a, wadd st.b t.b, wadd st.c t.c, wadd st.d t.d,
   wadd st.e t.e, wadd st.f t.f, wadd st.g t.g, wadd st.h t.h⟩

/-- Big-endian 8-byte encoding of the message bit length. -/
def lenBytes64 (n : Nat) : List Nat :=
  [(n >>> 56) % 256, (n >>> 48) % 256, (n >>> 40) % 256, (n >>> 32) % 256,
   (n >>> 24) % 256, (n >>> 16) % 256, (n >>> 8) % 256, n % 256]

/-- SHA-256 padding: append `0x80`, zero bytes to 56 mod 64, then the
64-bit big-endian bit length. -/
def sha256Pad (msg : List Nat) : List Nat :=
  let l := msg.length
  let k := (64 + 56 - (l + 1) % 64) % 64
  msg ++ 128 :: List.replicate k 0 ++ lenBytes64 (8 * l)

/-- Process the padded message 64 bytes at a time. -/
def sha256Chunks (st : Sha256St) : List Nat → Sha256St
  | [] => st
  | c :: cs => sha256Chunks (sha256Compress st ((c :: cs).take 64)) ((c :: cs).drop 64)
termination_by l => l.length
decreasing_by simp only [List.length_drop, List.length_cons]; omega

/-- Big-endian bytes of one hash word. -/
def wordBytes (w : Nat) : List Nat :=
  [(w >>> 24) % 256, (w >>> 16) % 256, (w >>> 8) % 256, w % 256]

/-- SHA-256 of a byte list, as a 32-byte list.  Models Go
`sha256.Sum256`. -/
def sha256 (msg : List Nat) : List Nat :=
  let st := sha256Chunks sha256Init (sha256Pad msg)
  wordBytes st.a ++ wordBytes st.b ++ wordBytes st.c ++ wordBytes st.d ++
  wordBytes st.e ++ wordBytes st.f ++ wordBytes st.g ++ wordBytes st.h

/-- HMAC-SHA256, as Go `hmac.New(sha256.New, key)`: keys longer than the
64-byte block are hashed, then zero-padded to the block size. -/
def hmacSHA256 (key msg : List Nat) : List Nat :=
  let k := if key.length > 64 then sha256 key else key
  let k0 := k ++ List.replicate (64 - k.length) 0
  sha256 ((k0.map fun b => b ^^^ 92) ++ sha256 ((k0.map fun b => b ^^^ 54) ++ msg))

/-- Models the source helper `hashSHA256`: lowercase hex of the SHA-256
digest of the input bytes. -/
def hashSHA256hex (input : String) : String := bytesToHex (sha256 (strBytes input))

/-! ## Time

Go `time.Time` is modelled by the projections the source uses: the UTC
calendar fields (for `Format("20060102T150405Z")` and
`Format("20060102")`), the Unix seconds (for `Expires`), and the
RFC1123 rendering (for the `Date` header).  The claims do not depend on
the arithmetic relations among these projections, so they are carried
as independent fields of one captured instant. -/

structure GoTime where
  year : Nat
  month : Nat
  day : Nat
  hour : Nat
  minute : Nat
  second : Nat
  unix : Int
  rfc1123 : String

/-- Two-digit zero-padded decimal, as Go reference-layout `01`, `02`,
`15`, `04`, `05` fields render. -/
def pad2 (n : Nat) : String := if n < 10 then "0" ++ toString n else toString n

/-- Four-digit zero-padded decimal, as the Go `2006` year field
renders. -/
def pad4 (n : Nat) : String :=
  if n < 10 then "000" ++ toString n
  else if n < 100 then "00" ++ toString n
  else if n < 1000 then "0" ++ toString n
  else toString n

/-- Go `now.Format("20060102")`: the YYYYMMDD date stamp. -/
def formatDateStamp (t : GoTime) : String := pad4 t.year ++ pad2 t.month ++ pad2 t.day

/-- Go `now.Format("20060102T150405Z")`. -/
def formatAmzDate (t : GoTime) : String :=
  formatDateStamp t ++ "T" ++ pad2 t.hour ++ pad2 t.minute ++ pad2 t.second ++ "Z"

/-! ## URLs and requests -/

/-- The components of a parsed URL that the source reads
(`Scheme`, `Host`, `Path`, `RawQuery`). -/
structure GoURL where
  scheme : String
  host : String
  path : String
  rawQuery : String
deriving DecidableEq

/-- Modelled from Go `net/url.Parse`, restricted to the URL shapes this
program constructs and passes: `scheme://host[/path]` with no userinfo,
query, fragment, or port validation.  A string containing `"://"` splits
at its first occurrence into scheme and the rest; the rest splits at its
first `'/'` into host and path; an empty scheme is a parse error
(`url.Parse` rejects URLs such as `"://x"` with "missing protocol
scheme").  A string without `"://"` parses, as in Go, into a URL with
empty scheme and host whose path is the whole string. -/
def urlParse (s : String) : Except String GoURL :=
  match breakOnSepL s.data with
  | some (schemeCs, restCs) =>
    if schemeCs = [] then .error "missing protocol scheme"
    else
      .ok { scheme := String.mk schemeCs,
            host := String.mk (restCs.takeWhile (· ≠ '/')),
            path := String.mk (restCs.dropWhile (· ≠ '/')),
            rawQuery := "" }
  | none => .ok { scheme := "", host := "", path := s, rawQuery := "" }

/-- Models the source `cleanHost`: strip the default port (`:443` for
https, `:80` for http) from a host. -/
def cleanHost (host scheme : String) : String :=
  if scheme = "https" ∧ goHasSuffix host ":443" then
    String.mk (host.data.take (host.data.length - 4))
  else if scheme = "http" ∧ goHasSuffix host ":80" then
    String.mk (host.data.take (host.data.length - 3))
  else host

/-- The fields of `http.Request` that the source reads or writes:
method, parsed URL, the `Host` used for signing (`req.Host`, which
`http.NewRequest` takes from the parsed URL), and the header map. -/
structure GoRequest where
  method : String
  url : GoURL
  host : String
  headers : List (String × String)
deriving DecidableEq

/-- Go `req.Header.Set(name, value)`: replaces any existing entry for
the name (header names in the source are already canonical). -/
def setHeader (name value : String) (hs : List (String × String)) : List (String × String) :=
  hs.filter (fun kv => kv.1 ≠ name) ++ [(name, value)]

/-- Go `req.Header.Get(name)`, returning the empty string when the
header is absent. -/
def getHeader (name : String) (hs : List (String × String)) : String :=
  (List.lookup name hs).getD ""

/-- Models the source `createRequest` (auth checker): parse the
endpoint, strip default ports, build the bucket URL for the requested
addressing style, and create a HEAD request via `http.NewRequest`
(modelled by re-parsing the built URL; `req.Host` is the host of that
parse).  The `Date` header value is injected, since the Go code formats
`time.Now()` there. -/
def createRequest (endpoint bucket : String) (pathStyle : Bool) (dateHeader : String) :
    Except String GoRequest :=
  match urlParse endpoint with
  | .error e => .error ("invalid endpoint: " ++ e)
  | .ok endpointURL =>
    let ch := cleanHost endpointURL.host endpointURL.scheme
    let bucketURL :=
      if pathStyle then endpointURL.scheme ++ "://" ++ ch ++ "/" ++ bucket
      else endpointURL.scheme ++ "://" ++ bucket ++ "." ++ ch
    let hostHeader := if pathStyle then ch else bucket ++ "." ++ ch
    match urlParse bucketURL with
    | .error e => .error e
    | .ok u =>
      .ok { method := "HEAD", url := u, host := u.host,
            headers :=
              setHeader "Date" dateHeader
                (setHeader "User-Agent" "s3-bucket-tester/1.0"
                  (setHeader "Host" hostHeader [])) }

/-! ## Addressing-style resolution (`applyAddressingStyle`) -/

/-- Models the fall-through tail of the source `applyAddressingStyle`:
trim an `http://` or `https://` prefix, then cut the string at the
first `'/'` (`strings.Index` plus slicing is `takeWhile (· ≠ '/')`). -/
def stripEndpoint (endpoint : List Char) : List Char :=
  let e1 := goTrimPrefixL endpoint "http://".data
  let e2 := goTrimPrefixL e1 "https://".data
  e2.takeWhile (· ≠ '/')

/-- Models the source `applyAddressingStyle` on character lists: when
the endpoint contains `"://"` and splits into exactly two parts, the
bucket is prepended to the host-path part as `bucket ++ "/"` (path
style) or `bucket ++ "."` (virtual hosted) unless that part already
starts with the corresponding prefix; otherwise the endpoint falls
through to `stripEndpoint`. -/
def applyAddressingStyleL (pathStyle : Bool) (bucket endpoint : List Char) : List Char :=
  if goContainsL endpoint sepL then
    match goSplitSep endpoint with
    | [protocol, hostPath] =>
      if pathStyle then
        if !((bucket ++ ['/']).isPrefixOf hostPath) then
          protocol ++ sepL ++ (bucket ++ ['/'] ++ hostPath)
        else protocol ++ sepL ++ hostPath
      else
        if !((bucket ++ ['.']).isPrefixOf hostPath) then
          protocol ++ sepL ++ (bucket ++ ['.'] ++ hostPath)
        else protocol ++ sepL ++ hostPath
    | _ => stripEndpoint endpoint
  else stripEndpoint endpoint

/-- String wrapper for `applyAddressingStyleL`. -/
def applyAddressingStyle (pathStyle : Bool) (bucket endpoint : String) : String :=
  String.mk (applyAddressingStyleL pathStyle bucket.data endpoint.data)

/-! ## Provider capability registry and detector -/

/-- The capability profile of a provider (source `ProviderCapabilities`). -/
structure ProviderCapabilities where
  name : String
  policySupport : String
  aclSupport : String
  virtualHostSupport : Bool
  pathStyleSupport : Bool
  notes : String
deriving DecidableEq

/-- The source `ProviderCapabilitiesMap` constant table; `none` models a
missing key of the Go map. -/
def providerCapabilitiesMap : String → Option ProviderCapabilities
  | "aws" => some ⟨"AWS S3", "Full", "Full", true, true,
      "Path-style is deprecated but functional"⟩
  | "wasabi" => some ⟨"Wasabi", "Full", "Full", true, true, "Very AWS-compatible"⟩
  | "ibm" => some ⟨"IBM Cloud Object Storage", "Full", "Full", true, true,
      "Supports both APIs"⟩
  | "do" => some ⟨"DigitalOcean Spaces", "Full", "Full", true, true, "AWS-like behavior"⟩
  | "b2" => some ⟨"Backblaze B2 (S3 API)", "IAM only", "None", true, true,
      "No policy/ACL APIs"⟩
  | "minio" => some ⟨"MinIO / AIStor", "Full", "Synthetic only", true, true,
      "Fully supports both styles"⟩
  | "cloudflare" => some ⟨"Cloudflare R2", "IAM only", "None", true, false,
      "No ACL/policy; path-style not supported"⟩
  | "hetzner" => some ⟨"Hetzner Storage Boxes (S3)", "Partial", "None", true, true,
      "Basic S3 only"⟩
  | "ceph" => some ⟨"Ceph RGW", "Full", "Full", true, true,
      "Very complete S3 implementation"⟩
  | "dell" => some ⟨"Dell EMC ECS", "Full", "Full", true, true, "Enterprise S3-compatible"⟩
  | "netapp" => some ⟨"NetApp StorageGRID", "Full", "Full", true, true,
      "Enterprise S3-compatible"⟩
  | "custom" => some ⟨"Custom/Unknown S3-Compatible", "Unknown", "Unknown", false, false,
      "Capabilities may vary - consult provider documentation"⟩
  | _ => none

/-- Models the source `DetectProvider`: lowercase the endpoint and test
the fixed substring rules in order, falling back to `"custom"`. -/
def detectProvider (endpoint : String) : String :=
  let e := goToLower endpoint
  if goContains e "amazonaws.com" then "aws"
  else if goContains e "wasabisys.com" then "wasabi"
  else if goContains e "backblazeb2.com" then "b2"
  else if goContains e "objectstorage.cloud.ibm.com" then "ibm"
  else if goContains e "digitaloceanspaces.com" then "do"
  else if goContains e "minio" || goContains e "aistor" then "minio"
  else if goContains e "cloudflare" || goContains e "r2" then "cloudflare"
  else if goContains e "hetzner" then "hetzner"
  else if goContains e "ceph" || goContains e "rgw" then "ceph"
  else if goContains e "dell" || goContains e "ecs" then "dell"
  else if goContains e "netapp" || goContains e "storagegrid" then "netapp"
  else "custom"

/-! ## Configuration and warning generation -/

/-- The source `Config` struct. -/
structure Config where
  endpoint : String
  bucket : String
  region : String
  accessKey : String
  secretKey : String
  authType : String
  port : Int
  insecure : Bool
  timeout : Int
  outputFormat : String
  outputFile : String
  followRedirect : Bool
  maxRedirects : Int
  verbose : Bool
  warning : String
  provider : String
  detectedProvider : String
  virtualHosted : Bool
  pathStyle : Bool
  checkPolicy : Bool
  providerCapabilities : Option ProviderCapabilities
deriving DecidableEq

/-- The source `GetDefaultConfig`. -/
def getDefaultConfig : Config :=
  { endpoint := "", bucket := "", region := "us-east-1", accessKey := "",
    secretKey := "", authType := "sigv4", port := 0, insecure := false,
    timeout := 30, outputFormat := "", outputFile := "",
    followRedirect := true, maxRedirects := 10, verbose := false,
    warning := "", provider := "", detectedProvider := "",
    virtualHosted := false, pathStyle := false, checkPolicy := false,
    providerCapabilities := none }

/-- The first block of the source `generateProviderWarnings`
(path-style checks): appends the unsupported-style warning, or else the
deprecation advisory, to `Warning`. -/
def pathStyleStep (c : Config) (caps : ProviderCapabilities) : Config :=
  if c.pathStyle && !caps.pathStyleSupport then
    let w := if c.warning ≠ "" then c.warning ++ "\n" else c.warning
    if c.detectedProvider = "custom" then
      { c with warning := w ++ "Warning: --path-style addressing may not be supported by this provider. Try removing --path-style flag." }
    else
      { c with warning := w ++ "Warning: --path-style addressing is not supported by " ++ caps.name ++ ". Try removing --path-style flag." }
  else if c.pathStyle && c.detectedProvider ≠ "custom" then
    if caps.notes ≠ "" && goContains caps.notes "deprecated" then
      let w := if c.warning ≠ "" then c.warning ++ "\n" else c.warning
      { c with warning := w ++ "Warning: --path-style addressing is deprecated for " ++ caps.name ++ ". " ++ caps.notes }
    else c
  else c

/-- The second block of the source `generateProviderWarnings`
(check-policy checks), run on the configuration produced by the first
block. -/
def policyStep (c1 : Config) (caps : ProviderCapabilities) : Config :=
  if c1.checkPolicy then
    if c1.detectedProvider = "custom" then
      let w := if c1.warning ≠ "" then c1.warning ++ "\n" else c1.warning
      { c1 with warning := w ++ "Warning: --check-policy is not supported on all S3-Compatible providers. This feature may not work with your provider." }
    else if caps.policySupport = "None" then
      let w := if c1.warning ≠ "" then c1.warning ++ "\n" else c1.warning
      { c1 with warning := w ++ "Warning: --check-policy is not supported by " ++ caps.name ++ ". Policy support: " ++ caps.policySupport }
    else if caps.policySupport ≠ "Full" then
      let w := if c1.warning ≠ "" then c1.warning ++ "\n" else c1.warning
      { c1 with warning := w ++ "Warning: --check-policy has limited support for " ++ caps.name ++ ". Policy support: " ++ caps.policySupport ++ ". " ++ caps.notes }
    else c1
  else c1

/-- Models the source `generateProviderWarnings`: returns immediately
when `ProviderCapabilities` is nil, otherwise runs the path-style block
and then the check-policy block, each appending to `Warning` separated
from existing text by a newline.  Only the `Warning` field is
written. -/
def generateProviderWarnings (c : Config) : Config :=
  match c.providerCapabilities with
  | none => c
  | some caps => policyStep (pathStyleStep c caps) caps

/-! ## SigV4 signer -/

/-- Models the source `getSignatureKey`: the four-step HMAC-SHA256 key
derivation chain. -/
def getSignatureKey (secretKey region dateStamp : String) : List Nat :=
  let kDate := hmacSHA256 (strBytes ("AWS4" ++ secretKey)) (strBytes dateStamp)
  let kRegion := hmacSHA256 kDate (strBytes region)
  let kService := hmacSHA256 kRegion (strBytes "s3")
  hmacSHA256 kService (strBytes "aws4_request")

/-- Models the source `addSigV4Auth`: sets `X-Amz-Date`,
`X-Amz-Content-Sha256` and the `Authorization` header computed from the
canonical request, string-to-sign and derived signing key.  The current
time is injected as `now`. -/
def addSigV4Auth (accessKey secretKey region : String) (now : GoTime) (req : GoRequest) :
    GoRequest :=
  let amzDate := formatAmzDate now
  let dateStamp := formatDateStamp now
  let headers1 := setHeader "X-Amz-Content-Sha256" "UNSIGNED-PAYLOAD"
    (setHeader "X-Amz-Date" amzDate req.headers)
  let canonicalURI := if req.url.path = "" then "/" else req.url.path
  let canonicalQueryString := ""
  let canonicalHeaders := "host:" ++ req.host ++ "\nx-amz-content-sha256:UNSIGNED-PAYLOAD\nx-amz-date:" ++ amzDate ++ "\n"
  let signedHeaders := "host;x-amz-content-sha256;x-amz-date"
  let payloadHash := "UNSIGNED-PAYLOAD"
  let canonicalRequest := req.method ++ "\n" ++ canonicalURI ++ "\n" ++ canonicalQueryString
    ++ "\n" ++ canonicalHeaders ++ "\n" ++ signedHeaders ++ "\n" ++ payloadHash
  let credentialScope := dateStamp ++ "/" ++ region ++ "/s3/aws4_request"
  let stringToSign := "AWS4-HMAC-SHA256\n" ++ amzDate ++ "\n" ++ credentialScope ++ "\n"
    ++ hashSHA256hex canonicalRequest
  let signingKey := getSignatureKey secretKey region dateStamp
  let signature := hmacSHA256 signingKey (strBytes stringToSign)
  let authorizationHeader := "AWS4-HMAC-SHA256 Credential=" ++ accessKey ++ "/"
    ++ credentialScope ++ ", SignedHeaders=" ++ signedHeaders ++ ", Signature="
    ++ bytesToHex signature
  { req with headers := setHeader "Authorization" authorizationHeader headers1 }

/-! ## SigV2 signer -/

/-- Uppercase hex digit table, as Go `net/url` percent-encoding uses
(`"0123456789ABCDEF"`). -/
def hexDigitUpper : Nat → Char
  | 0 => '0' | 1 => '1' | 2 => '2' | 3 => '3' | 4 => '4'
  | 5 => '5' | 6 => '6' | 7 => '7' | 8 => '8' | 9 => '9'
  | 10 => 'A' | 11 => 'B' | 12 => 'C' | 13 => 'D' | 14 => 'E' | 15 => 'F'
  | _ => '0'

/-- Models Go `url.QueryEscape` on characters: unreserved ASCII
(alphanumerics and `-_.~`) pass through, space becomes `'+'`, every
other character has each of its UTF-8 bytes percent-encoded with
uppercase hex. -/
def queryEscapeL : List Char → List Char
  | [] => []
  | c :: cs =>
    (if c.isAlphanum || c = '-' || c = '_' || c = '.' || c = '~' then [c]
     else if c = ' ' then ['+']
     else (charUtf8 c).flatMap fun b => ['%', hexDigitUpper (b / 16), hexDigitUpper (b % 16)])
    ++ queryEscapeL cs

/-- String wrapper for `queryEscapeL`. -/
def queryEscape (s : String) : String := String.mk (queryEscapeL s.data)

/-- Models the source `getCanonicalizedResource`: for path style the
request path verbatim (with `"/"` appended when the path is empty); for
virtual-hosted style `"/" ++ bucket` followed by the path unless the
path is empty or `"/"`. -/
def getCanonicalizedResource (pathStyle : Bool) (bucket : String) (req : GoRequest) : String :=
  if pathStyle then
    req.url.path ++ (if req.url.path = "" then "/" else "")
  else
    "/" ++ bucket ++ (if req.url.path ≠ "" ∧ req.url.path ≠ "/" then req.url.path else "")

/-- Models the source `createSigV2CanonicalString`: verb, empty
Content-MD5, empty Content-Type, the `Date` header, and the
canonicalized resource, newline-separated. -/
def createSigV2CanonicalString (pathStyle : Bool) (bucket : String) (req : GoRequest) : String :=
  req.method ++ "\n" ++ "\n" ++ "\n" ++ getHeader "Date" req.headers ++ "\n"
  ++ getCanonicalizedResource pathStyle bucket req

/-- Models the source `addSigV2Auth`: set the `Date` header, sign the
canonical string with HMAC-SHA256 (the source deliberately uses SHA-256
rather than the SigV2-standard SHA-1), and append
`AWSAccessKeyId`, `Signature` and `Expires` (now plus 15 minutes, i.e.
900 seconds) to the query string, with `&` when a query already
exists. -/
def addSigV2Auth (accessKey secretKey : String) (pathStyle : Bool) (bucket : String)
    (now : GoTime) (req : GoRequest) : GoRequest :=
  let req1 := { req with headers := setHeader "Date" now.rfc1123 req.headers }
  let canonicalString := createSigV2CanonicalString pathStyle bucket req1
  let signature := hmacSHA256 (strBytes secretKey) (strBytes canonicalString)
  if req1.url.rawQuery = "" then
    { req1 with url := { req1.url with rawQuery :=
        ("AWSAccessKeyId=" ++ queryEscape accessKey ++ "&Signature="
         ++ queryEscape (bytesToHex signature) ++ "&Expires=" ++ toString (now.unix + 900)) } }
  else
    { req1 with url := { req1.url with rawQuery :=
        (req1.url.rawQuery ++ "&AWSAccessKeyId=" ++ queryEscape accessKey ++ "&Signature="
         ++ queryEscape (bytesToHex signature) ++ "&Expires=" ++ toString (now.unix + 900)) } }

/-! ## Lemmas about the string helpers -/

theorem isPrefixOf_self_append (l m : List Char) : l.isPrefixOf (l ++ m) = true := by
  rw [List.isPrefixOf_iff_prefix]
  exact List.prefix_append l m

theorem isPrefixOf_append_extend {l m : List Char} (n : List Char)
    (h : l.isPrefixOf m = true) : l.isPrefixOf (m ++ n) = true := by
  rw [List.isPrefixOf_iff_prefix] at h ⊢
  exact h.trans (List.prefix_append m n)

theorem mem_of_isPrefixOf {l m : List Char} {x : Char} (h : l.isPrefixOf m = true)
    (hx : x ∈ l) : x ∈ m := by
  rw [List.isPrefixOf_iff_prefix] at h
  exact h.subset hx

theorem mem_of_isSuffixOf {l m : List Char} {x : Char} (h : l.isSuffixOf m = true)
    (hx : x ∈ l) : x ∈ m := by
  rw [List.isSuffixOf_iff_suffix] at h
  exact h.subset hx

theorem goContainsL_cons (x : Char) (xs sub : List Char) :
    goContainsL (x :: xs) sub = (sub.isPrefixOf (x :: xs) || goContainsL xs sub) := rfl

/-- A string made of a prefix, the separator, and a suffix contains the
separator. -/
theorem goContainsL_append_sepL (a l : List Char) :
    goContainsL (a ++ (sepL ++ l)) sepL = true := by
  induction a with
  | nil =>
    simp only [List.nil_append]
    rw [show sepL ++ l = ':' :: ('/' :: '/' :: l) from rfl]
    rw [goContainsL_cons]
    rw [show (':' : Char) :: '/' :: '/' :: l = sepL ++ l from rfl]
    rw [isPrefixOf_self_append]
    simp
  | cons x xs ih =>
    rw [List.cons_append, goContainsL_cons, ih]
    simp

/-- No occurrence of `"://"` can straddle the boundary between a
separator-free block and a following explicit separator: if the
separator is not a prefix of `x :: xs`, it is not a prefix of
`x :: xs ++ "://" ++ l` either (the separator has shape `:`,`/`,`/`, so
a straddling match would force `:` and `/` to coincide). -/
theorem sepL_isPrefixOf_straddle_false (x : Char) (xs l : List Char)
    (h : sepL.isPrefixOf (x :: xs) = false) :
    sepL.isPrefixOf (x :: (xs ++ (sepL ++ l))) = false := by
  match xs with
  | [] => simp [sepL, List.isPrefixOf]
  | [y] => simp [sepL, List.isPrefixOf]
  | y :: z :: rest =>
    simp only [sepL, List.isPrefixOf, List.cons_append] at h ⊢
    simpa using h

/-- Decompose `goContainsL (x :: xs) sub = false` into its two
conjuncts. -/
theorem goContainsL_cons_false {x : Char} {xs sub : List Char}
    (h : goContainsL (x :: xs) sub = false) :
    sub.isPrefixOf (x :: xs) = false ∧ goContainsL xs sub = false := by
  rw [goContainsL_cons] at h
  exact ⟨by simpa using (Bool.or_eq_false_iff.mp h).1,
         by simpa using (Bool.or_eq_false_iff.mp h).2⟩

/-- `breakOnSepL` finds the explicit separator after a separator-free
block. -/
theorem breakOnSepL_prepend (a l : List Char) (ha : goContainsL a sepL = false) :
    breakOnSepL (a ++ (sepL ++ l)) = some (a, l) := by
  induction a with
  | nil =>
    simp only [List.nil_append]
    rw [show sepL ++ l = ':' :: ('/' :: '/' :: l) from rfl]
    rw [breakOnSepL]
    rw [show (':' : Char) :: '/' :: '/' :: l = sepL ++ l from rfl]
    rw [isPrefixOf_self_append]
    simp
  | cons x xs ih =>
    obtain ⟨h1, h2⟩ := goContainsL_cons_false ha
    rw [List.cons_append, breakOnSepL]
    rw [sepL_isPrefixOf_straddle_false x xs l h1]
    simp only [Bool.false_eq_true, if_false]
    rw [ih h2]

/-- Inversion for `breakOnSepL`: a successful break yields the original
string back, and the part before the separator is separator-free. -/
theorem breakOnSepL_inv {s a b : List Char} (h : breakOnSepL s = some (a, b)) :
    s = a ++ (sepL ++ b) ∧ goContainsL a sepL = false := by
  induction s generalizing a b with
  | nil => simp [breakOnSepL] at h
  | cons c cs ih =>
    rw [breakOnSepL] at h
    by_cases hp : sepL.isPrefixOf (c :: cs) = true
    · rw [hp] at h
      simp only [if_true] at h
      obtain ⟨ha, hb⟩ : ([] : List Char) = a ∧ cs.drop 2 = b := by
        constructor <;> [exact congrArg Prod.fst (Option.some.inj h);
                         exact congrArg Prod.snd (Option.some.inj h)]
      subst ha; subst hb
      match cs, hp with
      | c2 :: c3 :: rest, hp =>
        simp only [sepL, List.isPrefixOf, Bool.and_eq_true, beq_iff_eq] at hp
        obtain ⟨rfl, rfl, rfl, -⟩ := hp
        constructor
        · simp [sepL]
        · simp [goContainsL, sepL]
      | [c2], hp => simp [sepL, List.isPrefixOf] at hp
      | [], hp => simp [sepL, List.isPrefixOf] at hp
    · rw [Bool.not_eq_true] at hp
      rw [hp] at h
      simp only [Bool.false_eq_true, if_false] at h
      match hb : breakOnSepL cs with
      | none => rw [hb] at h; exact absurd h (by simp)
      | some (a0, b0) =>
        rw [hb] at h
        simp only [Option.some.injEq, Prod.mk.injEq] at h
        obtain ⟨ha, hb2⟩ := h
        subst hb2
        obtain ⟨hcs, hfree⟩ := ih hb
        subst ha
        constructor
        · rw [hcs]; rfl
        · rw [goContainsL_cons]
          have hnp : sepL.isPrefixOf (c :: a0) = false := by
            by_contra hcon
            rw [Bool.not_eq_false] at hcon
            have : sepL.isPrefixOf (c :: cs) = true := by
              rw [hcs, show c :: (a0 ++ (sepL ++ b0)) = (c :: a0) ++ (sepL ++ b0) from rfl]
              exact isPrefixOf_append_extend _ hcon
            rw [this] at hp; exact Bool.true_eq_false ▸ hp
          rw [hnp, hfree]
          rfl

/-- `goSplitSep` of a separator-free string is that string alone. -/
theorem goSplitSep_of_not_contains {q : List Char} (h : goContainsL q sepL = false) :
    goSplitSep q = [q] := by
  induction q with
  | nil => simp [goSplitSep]
  | cons c cs ih =>
    obtain ⟨h1, h2⟩ := goContainsL_cons_false h
    rw [goSplitSep, h1]
    simp only [Bool.false_eq_true, if_false]
    rw [ih h2]

/-- Splitting a string built from two separator-free parts around one
separator yields exactly those two parts. -/
theorem goSplitSep_parts {p q : List Char} (hp : goContainsL p sepL = false)
    (hq : goContainsL q sepL = false) : goSplitSep (p ++ (sepL ++ q)) = [p, q] := by
  induction p with
  | nil =>
    simp only [List.nil_append]
    rw [show sepL ++ q = ':' :: ('/' :: '/' :: q) from rfl]
    rw [goSplitSep]
    rw [show (':' : Char) :: '/' :: '/' :: q = sepL ++ q from rfl]
    rw [isPrefixOf_self_append]
    simp only [if_true, List.drop_succ_cons, List.drop_zero]
    rw [goSplitSep_of_not_contains hq]
  | cons x xs ih =>
    obtain ⟨h1, h2⟩ := goContainsL_cons_false hp
    rw [List.cons_append, goSplitSep]
    rw [sepL_isPrefixOf_straddle_false x xs q h1]
    simp only [Bool.false_eq_true, if_false]
    rw [ih h2]

/-- `goSplitSep` never returns the empty list. -/
theorem goSplitSep_ne_nil (s : List Char) : goSplitSep s ≠ [] := by
  induction s using goSplitSep.induct with
  | case1 => simp [goSplitSep]
  | case2 c cs hp ih => rw [goSplitSep, hp]; simp
  | case3 c cs hp hnil ih =>
    rw [goSplitSep]
    rw [Bool.not_eq_true] at hp
    rw [hp]
    simp [hnil]
  | case4 c cs hp r rs hrr ih =>
    rw [goSplitSep]
    rw [Bool.not_eq_true] at hp
    rw [hp]
    simp [hrr]

/-- Inversion for a one-part split: the string is that part and is
separator-free. -/
theorem goSplitSep_single_inv {s q : List Char} (h : goSplitSep s = [q]) :
    s = q ∧ goContainsL s sepL = false := by
  induction s using goSplitSep.induct generalizing q with
  | case1 =>
    simp only [goSplitSep, List.cons.injEq] at h
    exact ⟨h.1, rfl⟩
  | case2 c cs hp ih =>
    rw [goSplitSep, hp] at h
    simp only [if_true, List.cons.injEq] at h
    exact absurd h.2 (goSplitSep_ne_nil _)
  | case3 c cs hp hnil ih => exact absurd hnil (goSplitSep_ne_nil cs)
  | case4 c cs hp r rs hrr ih =>
    rw [goSplitSep] at h
    rw [Bool.not_eq_true] at hp
    rw [hp] at h
    simp only [Bool.false_eq_true, if_false, hrr, List.cons.injEq] at h
    obtain ⟨hq, hrs⟩ := h
    subst hrs
    obtain ⟨hcs, hfree⟩ := ih hrr
    subst hcs
    refine ⟨hq, ?_⟩
    rw [goContainsL_cons, hp, hfree]
    rfl

/-- Inversion for a two-part split: the string was the two parts around
one separator, and each part is separator-free. -/
theorem goSplitSep_pair_inv {s p q : List Char} (h : goSplitSep s = [p, q]) :
    s = p ++ (sepL ++ q) ∧ goContainsL p sepL = false ∧ goContainsL q sepL = false := by
  induction s using goSplitSep.induct generalizing p q with
  | case1 => simp [goSplitSep] at h
  | case2 c cs hp ih =>
    rw [goSplitSep, hp] at h
    simp only [if_true, List.cons.injEq] at h
    obtain ⟨hempty, hrest⟩ := h
    subst hempty
    match cs, hp with
    | c2 :: c3 :: rest, hp =>
      simp only [sepL, List.isPrefixOf, Bool.and_eq_true, beq_iff_eq] at hp
      obtain ⟨rfl, rfl, rfl, -⟩ := hp
      simp only [List.drop_succ_cons, List.drop_zero] at hrest
      obtain ⟨hrq, hfree⟩ := goSplitSep_single_inv hrest
      subst hrq
      exact ⟨rfl, rfl, hfree⟩
    | [c2], hp => simp [sepL, List.isPrefixOf] at hp
    | [], hp => simp [sepL, List.isPrefixOf] at hp
  | case3 c cs hp hnil ih => exact absurd hnil (goSplitSep_ne_nil cs)
  | case4 c cs hp r rs hrr ih =>
    rw [goSplitSep] at h
    rw [Bool.not_eq_true] at hp
    rw [hp] at h
    simp only [Bool.false_eq_true, if_false, hrr, List.cons.injEq] at h
    obtain ⟨hpr, hrs⟩ := h
    subst hpr
    have hcs : goSplitSep cs = [r, q] := by rw [hrr, hrs]
    obtain ⟨hcseq, hfr, hfq⟩ := ih hcs
    subst hcseq
    refine ⟨rfl, ?_, hfq⟩
    rw [goContainsL_cons]
    have hnp : sepL.isPrefixOf (c :: r) = false := by
      by_contra hcon
      rw [Bool.not_eq_false] at hcon
      have : sepL.isPrefixOf (c :: (r ++ (sepL ++ q))) = true := by
        rw [show c :: (r ++ (sepL ++ q)) = (c :: r) ++ (sepL ++ q) from rfl]
        exact isPrefixOf_append_extend _ hcon
      rw [this] at hp
      exact Bool.true_eq_false ▸ hp
    rw [hnp, hfr]
    rfl

/-- A string without `'/'` cannot contain `"://"`. -/
theorem goContainsL_sepL_false_of_no_slash {s : List Char} (h : '/' ∉ s) :
    goContainsL s sepL = false := by
  induction s with
  | nil => rfl
  | cons c cs ih =>
    rw [goContainsL_cons]
    have hcs : '/' ∉ cs := fun hx => h (List.mem_cons_of_mem c hx)
    have hnp : sepL.isPrefixOf (c :: cs) = false := by
      by_contra hcon
      rw [Bool.not_eq_false] at hcon
      exact h (mem_of_isPrefixOf hcon (by simp [sepL]))
    rw [hnp, ih hcs]
    rfl

/-- Prepending a colon-free block and a non-colon separator character to
a separator-free tail keeps the string separator-free (every occurrence
of `"://"` begins with `':'`). -/
theorem goContainsL_block_cons {b q : List Char} {c : Char} (hb : ':' ∉ b)
    (hc : c ≠ ':') (hq : goContainsL q sepL = false) :
    goContainsL (b ++ c :: q) sepL = false := by
  induction b with
  | nil =>
    rw [List.nil_append, goContainsL_cons]
    have hnp : sepL.isPrefixOf (c :: q) = false := by
      simp only [sepL, List.isPrefixOf, Bool.and_eq_false_iff]
      left
      simpa [beq_iff_eq] using fun h => hc h.symm
    rw [hnp, hq]
    rfl
  | cons x xs ih =>
    rw [List.cons_append, goContainsL_cons]
    have hx : x ≠ ':' := fun hx => hb (hx ▸ List.mem_cons_self x xs)
    have hxs : ':' ∉ xs := fun hmem => hb (List.mem_cons_of_mem x hmem)
    have hnp : sepL.isPrefixOf (x :: (xs ++ c :: q)) = false := by
      simp only [sepL, List.isPrefixOf, Bool.and_eq_false_iff]
      left
      simpa [beq_iff_eq] using fun h => hx h.symm
    rw [hnp, ih hxs]
    rfl

theorem takeWhile_append_stop {p : Char → Bool} {a : List Char} (b : List Char) {c : Char}
    (h : ∀ x ∈ a, p x) (hc : ¬ p c) : (a ++ c :: b).takeWhile p = a := by
  induction a with
  | nil => simp [List.takeWhile, hc]
  | cons x xs ih =>
    simp only [List.cons_append, List.takeWhile_cons]
    rw [if_pos (h x (by simp))]
    rw [ih (fun y hy => h y (by simp [hy]))]

theorem dropWhile_append_stop {p : Char → Bool} {a : List Char} (b : List Char) {c : Char}
    (h : ∀ x ∈ a, p x) (hc : ¬ p c) : (a ++ c :: b).dropWhile p = c :: b := by
  induction a with
  | nil => simp [List.dropWhile, hc]
  | cons x xs ih =>
    simp only [List.cons_append, List.dropWhile_cons]
    rw [if_pos (h x (by simp))]
    exact ih (fun y hy => h y (by simp [hy]))

/-- Every character of `stripEndpoint e` satisfies `· ≠ '/'`. -/
theorem stripEndpoint_no_slash (e : List Char) : '/' ∉ stripEndpoint e := by
  intro hmem
  have := List.mem_takeWhile_imp hmem
  simp at this

/-- `setHeader` followed by a lookup of the same name retrieves the set
value. -/
theorem getHeader_setHeader (n v : String) (hs : List (String × String)) :
    getHeader n (setHeader n v hs) = v := by
  unfold getHeader setHeader
  induction hs with
  | nil => simp [List.lookup]
  | cons kv t ih =>
    by_cases hk : kv.1 = n
    · simp only [List.filter_cons, hk]
      simpa using ih
    · simp only [List.filter_cons]
      rw [if_pos (by simpa using hk)]
      rw [List.cons_append, List.lookup]
      have : (n == kv.1) = false := by
        simpa [beq_iff_eq] using fun h => hk h.symm
      rw [this]
      exact ih

/-! ## Lemmas about hex output and digest lengths -/

/-- Lowercase-hex character predicate: a decimal digit or `'a'`–`'f'`. -/
def isLowerHexChar (c : Char) : Bool :=
  (48 ≤ c.toNat && c.toNat ≤ 57) || (97 ≤ c.toNat && c.toNat ≤ 102)

theorem hexDigit_isLowerHex (n : Nat) : isLowerHexChar (hexDigit n) = true := by
  match n with
  | 0 => decide
  | 1 => decide
  | 2 => decide
  | 3 => decide
  | 4 => decide
  | 5 => decide
  | 6 => decide
  | 7 => decide
  | 8 => decide
  | 9 => decide
  | 10 => decide
  | 11 => decide
  | 12 => decide
  | 13 => decide
  | 14 => decide
  | 15 => decide
  | k + 16 => exact rfl

theorem bytesToHexL_length (bs : List Nat) : (bytesToHexL bs).length = 2 * bs.length := by
  induction bs with
  | nil => rfl
  | cons b t ih => simp [bytesToHexL, ih]; ring

theorem bytesToHexL_all_lower (bs : List Nat) :
    (bytesToHexL bs).all isLowerHexChar = true := by
  induction bs with
  | nil => rfl
  | cons b t ih =>
    simp only [bytesToHexL, List.all_cons, ih, Bool.and_true]
    rw [hexDigit_isLowerHex, hexDigit_isLowerHex]
    rfl

theorem sha256_length (msg : List Nat) : (sha256 msg).length = 32 := by
  simp [sha256, wordBytes]

theorem hmacSHA256_length (key msg : List Nat) : (hmacSHA256 key msg).length = 32 := by
  unfold hmacSHA256
  exact sha256_length _

/-! ## Lemmas about `urlParse` and `createRequest` -/

/-- String append acts as list append on the underlying data. -/
theorem string_data_append (a b : String) : (a ++ b).data = a.data ++ b.data := rfl

/-- Inversion for a successful parse: the scheme contains no `"://"`
and the host contains no `'/'`. -/
theorem urlParse_ok_inv {s : String} {u : GoURL} (h : urlParse s = .ok u) :
    goContainsL u.scheme.data sepL = false ∧ '/' ∉ u.host.data := by
  unfold urlParse at h
  match hb : breakOnSepL s.data with
  | none =>
    rw [hb] at h
    simp only [Except.ok.injEq] at h
    subst h
    exact ⟨rfl, by simp⟩
  | some (a, b) =>
    rw [hb] at h
    dsimp only at h
    by_cases ha : a = []
    · rw [if_pos ha] at h
      exact absurd h (by simp)
    · rw [if_neg ha] at h
      simp only [Except.ok.injEq] at h
      subst h
      refine ⟨(breakOnSepL_inv hb).2, ?_⟩
      intro hmem
      have := List.mem_takeWhile_imp hmem
      simp at this

/-- A cleaned host has no more characters than the original host. -/
theorem cleanHost_no_slash {host scheme : String} (h : '/' ∉ host.data) :
    '/' ∉ (cleanHost host scheme).data := by
  unfold cleanHost
  split
  · intro hmem
    exact h (List.take_subset _ _ hmem)
  · split
    · intro hmem
      exact h (List.take_subset _ _ hmem)
    · exact h

/-- The parse of a built bucket URL `scheme ++ "://" ++ rest` when the
scheme is separator-free and nonempty. -/
theorem urlParse_build {scheme rest : String}
    (hfree : goContainsL scheme.data sepL = false) (hne : scheme ≠ "") :
    urlParse (scheme ++ "://" ++ rest) =
      .ok { scheme := scheme, host := String.mk (rest.data.takeWhile (· ≠ '/')),
            path := String.mk (rest.data.dropWhile (· ≠ '/')), rawQuery := "" } := by
  have hdata : (scheme ++ "://" ++ rest).data = scheme.data ++ (sepL ++ rest.data) := by
    rw [string_data_append, string_data_append, List.append_assoc]
    rfl
  unfold urlParse
  rw [hdata, breakOnSepL_prepend _ _ hfree]
  dsimp only
  have hne2 : scheme.data ≠ [] := fun hc => hne (String.ext hc)
  rw [if_neg hne2]

/-- Shape of a successfully created request: for path style the host is
the cleaned endpoint host and the path is `"/" ++ bucket`; for
virtual-hosted style the host is `bucket ++ "." ++ cleanedHost` and the
path is empty. -/
theorem createRequest_shape {endpoint : String} {u : GoURL} (bucket : String)
    (pathStyle : Bool) (dateHeader : String)
    (hu : urlParse endpoint = .ok u) (hs : u.scheme ≠ "") (hb : '/' ∉ bucket.data) :
    createRequest endpoint bucket pathStyle dateHeader = .ok
      { method := "HEAD",
        url := { scheme := u.scheme,
                 host := if pathStyle then cleanHost u.host u.scheme
                         else bucket ++ "." ++ cleanHost u.host u.scheme,
                 path := if pathStyle then "/" ++ bucket else "",
                 rawQuery := "" },
        host := if pathStyle then cleanHost u.host u.scheme
                else bucket ++ "." ++ cleanHost u.host u.scheme,
        headers := setHeader "Date" dateHeader
          (setHeader "User-Agent" "s3-bucket-tester/1.0"
            (setHeader "Host"
              (if pathStyle then cleanHost u.host u.scheme
               else bucket ++ "." ++ cleanHost u.host u.scheme) [])) } := by
  obtain ⟨hfree, hhost⟩ := urlParse_ok_inv hu
  have hch : '/' ∉ (cleanHost u.host u.scheme).data := cleanHost_no_slash hhost
  unfold createRequest
  rw [hu]
  cases pathStyle with
  | true =>
    simp only [if_true]
    rw [show u.scheme ++ "://" ++ cleanHost u.host u.scheme ++ "/" ++ bucket
          = u.scheme ++ "://" ++ (cleanHost u.host u.scheme ++ "/" ++ bucket) by
        simp [String.append_assoc]]
    rw [urlParse_build hfree hs]
    have hdata : (cleanHost u.host u.scheme ++ "/" ++ bucket).data
        = (cleanHost u.host u.scheme).data ++ '/' :: bucket.data := by
      rw [string_data_append, string_data_append]
      simp
    have htake : ((cleanHost u.host u.scheme ++ "/" ++ bucket).data.takeWhile (· ≠ '/'))
        = (cleanHost u.host u.scheme).data := by
      rw [hdata]
      exact takeWhile_append_stop _ (fun x hx => by simpa using fun (he : x = '/') => hch (he ▸ hx))
        (by simp)
    have hdrop : ((cleanHost u.host u.scheme ++ "/" ++ bucket).data.dropWhile (· ≠ '/'))
        = '/' :: bucket.data := by
      rw [hdata]
      exact dropWhile_append_stop _ (fun x hx => by simpa using fun (he : x = '/') => hch (he ▸ hx))
        (by simp)
    rw [htake, hdrop]
    rfl
  | false =>
    simp only [Bool.false_eq_true, if_false]
    rw [show u.scheme ++ "://" ++ bucket ++ "." ++ cleanHost u.host u.scheme
          = u.scheme ++ "://" ++ (bucket ++ "." ++ cleanHost u.host u.scheme) by
        simp [String.append_assoc]]
    rw [urlParse_build hfree hs]
    have hall : ∀ x ∈ (bucket ++ "." ++ cleanHost u.host u.scheme).data,
        (fun c => decide (c ≠ '/')) x = true := by
      intro x hx
      rw [string_data_append, string_data_append] at hx
      simp only [List.mem_append, List.mem_singleton] at hx
      rcases hx with (hx | hx) | hx
      · simpa using fun (he : x = '/') => hb (he ▸ hx)
      · have hxe : x = '.' := by simpa using hx
        subst hxe
        simp
      · simpa using fun (he : x = '/') => hch (he ▸ hx)
    have htake : ((bucket ++ "." ++ cleanHost u.host u.scheme).data.takeWhile (· ≠ '/'))
        = (bucket ++ "." ++ cleanHost u.host u.scheme).data :=
      List.takeWhile_eq_self_iff.mpr hall
    have hdrop : ((bucket ++ "." ++ cleanHost u.host u.scheme).data.dropWhile (· ≠ '/'))
        = [] :=
      List.dropWhile_eq_nil_iff.mpr hall
    rw [htake, hdrop]

/-! ## Claim theorems -/

/-- C5: the SigV2 canonicalized resource is, for path style, the
resolved request path verbatim (defaulting to `"/"` when the path is
empty) and, for virtual-hosted style, `"/" ++ bucket` prepended to the
path (the path omitted when it is empty or `"/"`); consequently for
bucket `b` with path `/` under virtual hosting the resource is `/b`,
and for path style with resolved path `/b` it is also `/b`. -/
theorem c5_sigv2_canonicalized_resource :
    (∀ (bucket : String) (req : GoRequest),
        getCanonicalizedResource true bucket req =
          (if req.url.path = "" then "/" else req.url.path)) ∧
    (∀ (bucket : String) (req : GoRequest),
        getCanonicalizedResource false bucket req =
          "/" ++ bucket ++
            (if req.url.path ≠ "" ∧ req.url.path ≠ "/" then req.url.path else "")) ∧
    getCanonicalizedResource false "b"
      ⟨"HEAD", ⟨"https", "b.example.com", "/", ""⟩, "b.example.com", []⟩ = "/b" ∧
    getCanonicalizedResource true "b"
      ⟨"HEAD", ⟨"https", "example.com", "/b", ""⟩, "example.com", []⟩ = "/b" := by
  refine ⟨?_, ?_, by decide, by decide⟩
  · intro bucket req
    unfold getCanonicalizedResource
    simp only [if_true]
    by_cases h : req.url.path = ""
    · rw [if_pos h, h]
      simp
    · rw [if_neg h, if_neg h]
      simp
  · intro bucket req
    rfl

/-- Helper for C1: the `Authorization` header set by `addSigV4Auth` is
the literal prefix, credential scope, signed-header list and the hex of
a 32-byte HMAC-SHA256 digest. -/
theorem addSigV4Auth_header_shape (accessKey secretKey region : String) (now : GoTime)
    (req : GoRequest) :
    ∃ bs : List Nat, bs.length = 32 ∧
      getHeader "Authorization" (addSigV4Auth accessKey secretKey region now req).headers
        = "AWS4-HMAC-SHA256 Credential=" ++ accessKey ++ "/"
          ++ (formatDateStamp now ++ "/" ++ region ++ "/s3/aws4_request")
          ++ ", SignedHeaders=" ++ "host;x-amz-content-sha256;x-amz-date"
          ++ ", Signature=" ++ bytesToHex bs := by
  simp only [addSigV4Auth]
  rw [getHeader_setHeader]
  exact ⟨_, hmacSHA256_length _ _, rfl⟩

/-- C1: for every access key, secret key, region, request and
timestamp, the SigV4 signer sets an `Authorization` header of exactly
the form
`AWS4-HMAC-SHA256 Credential=<accessKey>/<dateStamp>/<region>/s3/aws4_request, SignedHeaders=host;x-amz-content-sha256;x-amz-date, Signature=<sig>`
where `<dateStamp>` is the YYYYMMDD date of the timestamp
(`formatDateStamp`) and `<sig>` is a 64-character lowercase-hex
string. -/
theorem c1_sigv4_authorization_header_format (accessKey secretKey region : String)
    (now : GoTime) (req : GoRequest) :
    ∃ sig : String,
      getHeader "Authorization" (addSigV4Auth accessKey secretKey region now req).headers
        = "AWS4-HMAC-SHA256 Credential=" ++ accessKey ++ "/" ++ formatDateStamp now
          ++ "/" ++ region
          ++ "/s3/aws4_request, SignedHeaders=host;x-amz-content-sha256;x-amz-date, Signature="
          ++ sig
        ∧ sig.length = 64 ∧ sig.data.all isLowerHexChar = true := by
  obtain ⟨bs, hlen, heq⟩ := addSigV4Auth_header_shape accessKey secretKey region now req
  refine ⟨bytesToHex bs, ?_, ?_, ?_⟩
  · rw [heq]
    simp only [String.append_assoc]
    rfl
  · show (bytesToHexL bs).length = 64
    rw [bytesToHexL_length, hlen]
  · exact bytesToHexL_all_lower bs

/-- C6: the SigV2 signer appends to the query string exactly
`AWSAccessKeyId=<urlencoded accessKey>&Signature=<urlencoded hex of the HMAC-SHA256 of the canonical string under the secret key>&Expires=<unix time + 900s>`,
preceded by the existing query string and `&` when one exists; the
signature hash is SHA-256-based (`hmacSHA256`), not SHA-1. -/
theorem c6_sigv2_query_string (accessKey secretKey : String) (pathStyle : Bool)
    (bucket : String) (now : GoTime) (req : GoRequest) :
    (addSigV2Auth accessKey secretKey pathStyle bucket now req).url.rawQuery
      = (if req.url.rawQuery = "" then "" else req.url.rawQuery ++ "&")
        ++ "AWSAccessKeyId=" ++ queryEscape accessKey
        ++ "&Signature=" ++ queryEscape (bytesToHex (hmacSHA256 (strBytes secretKey)
              (strBytes (createSigV2CanonicalString pathStyle bucket
                { req with headers := setHeader "Date" now.rfc1123 req.headers }))))
        ++ "&Expires=" ++ toString (now.unix + 900) := by
  simp only [addSigV2Auth]
  by_cases h : req.url.rawQuery = ""
  · rw [if_pos h, if_pos h]
    simp only [String.append_assoc]
    rfl
  · rw [if_neg h, if_neg h]
    simp only [String.append_assoc]
    rfl

/-! ## Decomposition of warning generation -/

/-- The path-style warning text that `generateProviderWarnings` appends
for a configuration, if any: the unsupported-style warning when the
provider lacks path-style support, else the deprecation advisory when
the provider notes mark path style deprecated. -/
def pathStyleWarning (c : Config) (caps : ProviderCapabilities) : Option String :=
  if c.pathStyle && !caps.pathStyleSupport then
    some (if c.detectedProvider = "custom" then
      "Warning: --path-style addressing may not be supported by this provider. Try removing --path-style flag."
    else
      "Warning: --path-style addressing is not supported by " ++ caps.name
        ++ ". Try removing --path-style flag.")
  else if c.pathStyle && c.detectedProvider ≠ "custom" then
    if caps.notes ≠ "" && goContains caps.notes "deprecated" then
      some ("Warning: --path-style addressing is deprecated for " ++ caps.name ++ ". "
        ++ caps.notes)
    else none
  else none

/-- The check-policy warning text that `generateProviderWarnings`
appends for a configuration, if any. -/
def policyWarning (c : Config) (caps : ProviderCapabilities) : Option String :=
  if c.checkPolicy then
    if c.detectedProvider = "custom" then
      some "Warning: --check-policy is not supported on all S3-Compatible providers. This feature may not work with your provider."
    else if caps.policySupport = "None" then
      some ("Warning: --check-policy is not supported by " ++ caps.name
        ++ ". Policy support: " ++ caps.policySupport)
    else if caps.policySupport ≠ "Full" then
      some ("Warning: --check-policy has limited support for " ++ caps.name
        ++ ". Policy support: " ++ caps.policySupport ++ ". " ++ caps.notes)
    else none
  else none

/-- Append an optional warning to accumulated warning text, separated
by a newline when text already exists. -/
def appendWarning (w : String) : Option String → String
  | none => w
  | some t => (if w ≠ "" then w ++ "\n" else w) ++ t

/-- The path-style block appends exactly `pathStyleWarning`. -/
theorem pathStyleStep_eq (c : Config) (caps : ProviderCapabilities) :
    pathStyleStep c caps =
      { c with warning := appendWarning c.warning (pathStyleWarning c caps) } := by
  cases c
  unfold pathStyleStep pathStyleWarning appendWarning
  split_ifs <;> simp_all [String.append_assoc] <;> rfl

/-- The check-policy block appends exactly `policyWarning`. -/
theorem policyStep_eq (c1 : Config) (caps : ProviderCapabilities) :
    policyStep c1 caps =
      { c1 with warning := appendWarning c1.warning (policyWarning c1 caps) } := by
  cases c1
  unfold policyStep policyWarning appendWarning
  split_ifs <;> simp_all [String.append_assoc] <;> rfl

/-- `generateProviderWarnings` only rewrites `warning`, appending first
the path-style warning and then the policy warning. -/
theorem generateProviderWarnings_decomp (c : Config) (caps : ProviderCapabilities)
    (h : c.providerCapabilities = some caps) :
    generateProviderWarnings c =
      { c with warning := appendWarning (appendWarning c.warning (pathStyleWarning c caps))
                            (policyWarning c caps) } := by
  have hL : generateProviderWarnings c = policyStep (pathStyleStep c caps) caps := by
    unfold generateProviderWarnings
    rw [h]
  rw [hL, pathStyleStep_eq, policyStep_eq]
  rfl

/-- The accumulated warning text is always a prefix of the result of
appending an optional warning. -/
theorem appendWarning_isPrefix (w : String) (o : Option String) :
    w.data.isPrefixOf (appendWarning w o).data = true := by
  cases o with
  | none =>
    rw [List.isPrefixOf_iff_prefix]
    exact List.prefix_rfl
  | some t =>
    unfold appendWarning
    by_cases hw : w = ""
    · subst hw
      simp [List.isPrefixOf_iff_prefix]
    · rw [if_pos hw, string_data_append, string_data_append, List.append_assoc]
      exact isPrefixOf_self_append _ _

/-- A cloudflare-detected configuration requesting path style. -/
def configCloudflarePath : Config :=
  { getDefaultConfig with
      pathStyle := true
      detectedProvider := "cloudflare"
      providerCapabilities := providerCapabilitiesMap "cloudflare" }

/-- An aws-detected configuration requesting path style. -/
def configAwsPath : Config :=
  { getDefaultConfig with
      pathStyle := true
      detectedProvider := "aws"
      providerCapabilities := providerCapabilitiesMap "aws" }

/-- A b2-detected configuration with existing warning text, path style
and the policy check enabled. -/
def configB2Policy : Config :=
  { getDefaultConfig with
      warning := "W"
      pathStyle := true
      checkPolicy := true
      detectedProvider := "b2"
      providerCapabilities := providerCapabilitiesMap "b2" }

/-- C7: warning generation satisfies the documented scenarios and
ordering: detected provider `cloudflare` with path style yields exactly
one warning (no newline separator in the result) mentioning
`Cloudflare R2` and `path-style`; detected provider `aws` with path
style yields no unsupported-style warning but exactly one deprecation
advisory; and in general the final warning text is the old text, then
the path-style warning, then the policy warning, joined by newline
separators (`appendWarning`), so path-style warnings always precede
policy warnings. -/
theorem c7_warning_scenarios :
    ((generateProviderWarnings configCloudflarePath).warning
        = "Warning: --path-style addressing is not supported by Cloudflare R2. Try removing --path-style flag."
      ∧ goContains (generateProviderWarnings configCloudflarePath).warning "Cloudflare R2" = true
      ∧ goContains (generateProviderWarnings configCloudflarePath).warning "path-style" = true
      ∧ goContains (generateProviderWarnings configCloudflarePath).warning "\n" = false)
    ∧ ((generateProviderWarnings configAwsPath).warning
        = "Warning: --path-style addressing is deprecated for AWS S3. Path-style is deprecated but functional"
      ∧ goContains (generateProviderWarnings configAwsPath).warning "deprecated" = true
      ∧ goContains (generateProviderWarnings configAwsPath).warning "is not supported" = false
      ∧ goContains (generateProviderWarnings configAwsPath).warning "\n" = false)
    ∧ ∀ (c : Config) (caps : ProviderCapabilities), c.providerCapabilities = some caps →
        (generateProviderWarnings c).warning
          = appendWarning (appendWarning c.warning (pathStyleWarning c caps))
              (policyWarning c caps) := by
  refine ⟨⟨by decide, by decide, by decide, by decide⟩,
          ⟨by decide, by decide, by decide, by decide⟩, ?_⟩
  intro c caps h
  rw [generateProviderWarnings_decomp c caps h]

/-- Witness for C7: the ordering clause applied to a concrete
configuration in which both a path-style check and a policy warning are
in play, evaluated to the concrete newline-joined result. -/
theorem c7_warning_scenarios_witness :
    (generateProviderWarnings configB2Policy).warning
      = "W\nWarning: --check-policy has limited support for Backblaze B2 (S3 API). Policy support: IAM only. No policy/ACL APIs" := by
  rw [c7_warning_scenarios.2.2 configB2Policy
    ⟨"Backblaze B2 (S3 API)", "IAM only", "None", true, true, "No policy/ACL APIs"⟩
    (by decide)]
  decide

/-- C10: warning generation is append-only on `warning` (the old text
is a prefix of the new text, and additions go through `appendWarning`,
which separates them from existing text with a newline), and every
other field of the configuration is unchanged. -/
theorem c10_generate_warnings_frame (c : Config) :
    c.warning.data.isPrefixOf (generateProviderWarnings c).warning.data = true
    ∧ (generateProviderWarnings c).endpoint = c.endpoint
    ∧ (generateProviderWarnings c).bucket = c.bucket
    ∧ (generateProviderWarnings c).region = c.region
    ∧ (generateProviderWarnings c).accessKey = c.accessKey
    ∧ (generateProviderWarnings c).secretKey = c.secretKey
    ∧ (generateProviderWarnings c).authType = c.authType
    ∧ (generateProviderWarnings c).port = c.port
    ∧ (generateProviderWarnings c).insecure = c.insecure
    ∧ (generateProviderWarnings c).timeout = c.timeout
    ∧ (generateProviderWarnings c).outputFormat = c.outputFormat
    ∧ (generateProviderWarnings c).outputFile = c.outputFile
    ∧ (generateProviderWarnings c).followRedirect = c.followRedirect
    ∧ (generateProviderWarnings c).maxRedirects = c.maxRedirects
    ∧ (generateProviderWarnings c).verbose = c.verbose
    ∧ (generateProviderWarnings c).provider = c.provider
    ∧ (generateProviderWarnings c).detectedProvider = c.detectedProvider
    ∧ (generateProviderWarnings c).virtualHosted = c.virtualHosted
    ∧ (generateProviderWarnings c).pathStyle = c.pathStyle
    ∧ (generateProviderWarnings c).checkPolicy = c.checkPolicy
    ∧ (generateProviderWarnings c).providerCapabilities = c.providerCapabilities
    ∧ ∀ caps, c.providerCapabilities = some caps →
        (generateProviderWarnings c).warning
          = appendWarning (appendWarning c.warning (pathStyleWarning c caps))
              (policyWarning c caps) := by
  match hc : c.providerCapabilities with
  | none =>
    have hid : generateProviderWarnings c = c := by
      unfold generateProviderWarnings
      rw [hc]
    rw [hid]
    refine ⟨?_, rfl, rfl, rfl, rfl, rfl, rfl, rfl, rfl, rfl, rfl, rfl, rfl, rfl, rfl,
            rfl, rfl, rfl, rfl, rfl, hc, ?_⟩
    · rw [List.isPrefixOf_iff_prefix]
    · intro caps h
      exact absurd h (by simp)
  | some caps0 =>
    rw [generateProviderWarnings_decomp c caps0 hc]
    refine ⟨?_, rfl, rfl, rfl, rfl, rfl, rfl, rfl, rfl, rfl, rfl, rfl, rfl, rfl, rfl,
            rfl, rfl, rfl, rfl, rfl, hc, ?_⟩
    · have h1 := appendWarning_isPrefix c.warning (pathStyleWarning c caps0)
      have h2 := appendWarning_isPrefix
        (appendWarning c.warning (pathStyleWarning c caps0)) (policyWarning c caps0)
      rw [List.isPrefixOf_iff_prefix] at h1 h2 ⊢
      exact h1.trans h2
    · intro caps h
      obtain rfl := Option.some.inj h
      rfl

/-- Witness for C10: the frame and decomposition applied to a concrete
configuration with pre-existing warning text. -/
theorem c10_generate_warnings_frame_witness :
    configB2Policy.warning.data.isPrefixOf
        (generateProviderWarnings configB2Policy).warning.data = true
    ∧ (generateProviderWarnings configB2Policy).checkPolicy = configB2Policy.checkPolicy
    ∧ (generateProviderWarnings configB2Policy).warning
        = appendWarning (appendWarning configB2Policy.warning
            (pathStyleWarning configB2Policy
              ⟨"Backblaze B2 (S3 API)", "IAM only", "None", true, true, "No policy/ACL APIs"⟩))
            (policyWarning configB2Policy
              ⟨"Backblaze B2 (S3 API)", "IAM only", "None", true, true, "No policy/ACL APIs"⟩) := by
  obtain ⟨hpre, -, -, -, -, -, -, -, -, -, -, -, -, -, -, -, -, -, -, hcp, -, hlast⟩ :=
    c10_generate_warnings_frame configB2Policy
  exact ⟨hpre, hcp, hlast _ rfl⟩

/-- C8: an endpoint containing none of the detection substrings (after
lowercasing) detects as `custom`; the `custom` capability profile has
`Unknown` policy and ACL support and both addressing-style flags false;
and request resolution for such an endpoint still succeeds — the
unsupported capabilities never produce an error. -/
theorem c8_unknown_provider_fallback (endpoint bucket : String) (u : GoURL)
    (pathStyle : Bool) (dateHeader : String)
    (h1 : goContains (goToLower endpoint) "amazonaws.com" = false)
    (h2 : goContains (goToLower endpoint) "wasabisys.com" = false)
    (h3 : goContains (goToLower endpoint) "backblazeb2.com" = false)
    (h4 : goContains (goToLower endpoint) "objectstorage.cloud.ibm.com" = false)
    (h5 : goContains (goToLower endpoint) "digitaloceanspaces.com" = false)
    (h6 : goContains (goToLower endpoint) "minio" = false)
    (h7 : goContains (goToLower endpoint) "aistor" = false)
    (h8 : goContains (goToLower endpoint) "cloudflare" = false)
    (h9 : goContains (goToLower endpoint) "r2" = false)
    (h10 : goContains (goToLower endpoint) "hetzner" = false)
    (h11 : goContains (goToLower endpoint) "ceph" = false)
    (h12 : goContains (goToLower endpoint) "rgw" = false)
    (h13 : goContains (goToLower endpoint) "dell" = false)
    (h14 : goContains (goToLower endpoint) "ecs" = false)
    (h15 : goContains (goToLower endpoint) "netapp" = false)
    (h16 : goContains (goToLower endpoint) "storagegrid" = false)
    (hu : urlParse endpoint = .ok u) (hsch : u.scheme ≠ "") (hbk : '/' ∉ bucket.data) :
    detectProvider endpoint = "custom"
    ∧ providerCapabilitiesMap (detectProvider endpoint)
        = some ⟨"Custom/Unknown S3-Compatible", "Unknown", "Unknown", false, false,
                "Capabilities may vary - consult provider documentation"⟩
    ∧ ∃ req, createRequest endpoint bucket pathStyle dateHeader = .ok req := by
  have hd : detectProvider endpoint = "custom" := by
    unfold detectProvider
    simp only [h1, h2, h3, h4, h5, h6, h7, h8, h9, h10, h11, h12, h13, h14, h15, h16]
    simp
  refine ⟨hd, by rw [hd]; rfl, _,
    createRequest_shape bucket pathStyle dateHeader hu hsch hbk⟩

/-- Witness for C8: a concrete endpoint matching no substring rule. -/
theorem c8_unknown_provider_fallback_witness :
    detectProvider "https://storage.example.com" = "custom"
    ∧ ∃ req, createRequest "https://storage.example.com" "mybucket" true "d" = .ok req := by
  obtain ⟨ha, -, hres⟩ := c8_unknown_provider_fallback "https://storage.example.com" "mybucket"
    ⟨"https", "storage.example.com", "", ""⟩ true "d"
    (by decide) (by decide) (by decide) (by decide) (by decide) (by decide) (by decide)
    (by decide) (by decide) (by decide) (by decide) (by decide) (by decide) (by decide)
    (by decide) (by decide) (by rfl) (by decide) (by decide)
  exact ⟨ha, hres⟩

/-- C9 (amended): `createRequest` fails exactly when the endpoint fails
to parse as a URL (missing scheme); for every endpoint that parses with
a nonempty scheme it succeeds — including when the parsed host is
empty, so an empty host does not cause a resolution error. -/
theorem c9_resolution_error_behavior (endpoint bucket : String) (pathStyle : Bool)
    (dateHeader : String) :
    (∀ e, urlParse endpoint = .error e →
        createRequest endpoint bucket pathStyle dateHeader
          = .error ("invalid endpoint: " ++ e))
    ∧ (∀ u, urlParse endpoint = .ok u → u.scheme ≠ "" → '/' ∉ bucket.data →
        ∃ req, createRequest endpoint bucket pathStyle dateHeader = .ok req) := by
  constructor
  · intro e he
    unfold createRequest
    rw [he]
  · intro u hu hs hb
    exact ⟨_, createRequest_shape bucket pathStyle dateHeader hu hs hb⟩

/-- Witness for C9: a scheme-less endpoint fails with a configuration
error; a well-formed endpoint with nonempty host succeeds. -/
theorem c9_resolution_error_behavior_witness :
    createRequest "://x" "b" false "d" = .error "invalid endpoint: missing protocol scheme"
    ∧ ∃ req, createRequest "https://example.com" "b" false "d" = .ok req := by
  refine ⟨(c9_resolution_error_behavior "://x" "b" false "d").1
      "missing protocol scheme" (by rfl), ?_⟩
  exact (c9_resolution_error_behavior "https://example.com" "b" false "d").2
    ⟨"https", "example.com", "", ""⟩ (by rfl) (by decide) (by decide)

/-- Counterexample to C9 as stated: the endpoint `"https://"` parses
with an empty host (as Go `url.Parse` does), yet `createRequest`
succeeds and builds a request — so "for every endpoint whose parsed
host is empty, resolution fails" is false on the code. -/
theorem c9_counterexample :
    urlParse "https://" = .ok ⟨"https", "", "", ""⟩
    ∧ createRequest "https://" "b" true "d"
        = .ok ⟨"HEAD", ⟨"https", "", "/b", ""⟩, "",
            [("Host", ""), ("User-Agent", "s3-bucket-tester/1.0"), ("Date", "d")]⟩ := by
  constructor
  · rfl
  · rfl

/-- A colon-free host is left unchanged by `cleanHost` (it cannot end
in a default-port suffix). -/
theorem cleanHost_no_colon {host : String} (scheme : String) (hc : ':' ∉ host.data) :
    cleanHost host scheme = host := by
  have h443 : goHasSuffix host ":443" = false := by
    cases h : goHasSuffix host ":443" with
    | false => rfl
    | true => exact absurd (mem_of_isSuffixOf h (by decide)) hc
  have h80 : goHasSuffix host ":80" = false := by
    cases h : goHasSuffix host ":80" with
    | false => rfl
    | true => exact absurd (mem_of_isSuffixOf h (by decide)) hc
  unfold cleanHost
  split_ifs with hA hB
  · exact absurd hA.2 (by simp [h443])
  · exact absurd hB.2 (by simp [h80])
  · rfl

/-- A concrete virtual-hosted request: what `createRequest` returns for
endpoint `https://example.com`, bucket `b`. -/
def reqVHExample : GoRequest :=
  ⟨"HEAD", ⟨"https", "b.example.com", "", ""⟩, "b.example.com",
   [("Host", "b.example.com"), ("User-Agent", "s3-bucket-tester/1.0"), ("Date", "d")]⟩

/-- C3 (amended): for every successfully resolved request, under
virtual-hosted style exactly one of the two conditions holds (the host
starts with `bucket ++ "."` and the path, being empty, does not start
with `"/" ++ bucket`); under path style the path condition always
holds, and the host condition holds exactly when the cleaned endpoint
host itself starts with `bucket ++ "."` — so "never both" fails
precisely for path style with an already bucket-qualified endpoint
host. -/
theorem c3_style_exclusivity (endpoint bucket dateHeader : String) (u : GoURL)
    (req : GoRequest) (pathStyle : Bool)
    (hu : urlParse endpoint = .ok u) (hs : u.scheme ≠ "") (hb : '/' ∉ bucket.data)
    (hreq : createRequest endpoint bucket pathStyle dateHeader = .ok req) :
    (pathStyle = false →
        (bucket ++ ".").data.isPrefixOf req.host.data = true
        ∧ ("/" ++ bucket).data.isPrefixOf req.url.path.data = false)
    ∧ (pathStyle = true →
        ("/" ++ bucket).data.isPrefixOf req.url.path.data = true
        ∧ (bucket ++ ".").data.isPrefixOf req.host.data
            = (bucket ++ ".").data.isPrefixOf (cleanHost u.host u.scheme).data) := by
  rw [createRequest_shape bucket pathStyle dateHeader hu hs hb] at hreq
  obtain rfl := Except.ok.inj hreq
  constructor
  · rintro rfl
    constructor
    · show (bucket ++ ".").data.isPrefixOf (bucket ++ "." ++ cleanHost u.host u.scheme).data
        = true
      rw [show (bucket ++ "." ++ cleanHost u.host u.scheme).data
            = (bucket ++ ".").data ++ (cleanHost u.host u.scheme).data from rfl]
      exact isPrefixOf_self_append _ _
    · show ('/' :: bucket.data).isPrefixOf ([] : List Char) = false
      rfl
  · rintro rfl
    constructor
    · show ('/' :: bucket.data).isPrefixOf ('/' :: bucket.data) = true
      rw [List.isPrefixOf_iff_prefix]
    · rfl

/-- Witness for C3: the virtual-hosted clause evaluated at endpoint
`https://example.com` and bucket `b`. -/
theorem c3_style_exclusivity_witness :
    ("b" ++ ".").data.isPrefixOf reqVHExample.host.data = true
    ∧ ("/" ++ "b").data.isPrefixOf reqVHExample.url.path.data = false :=
  (c3_style_exclusivity "https://example.com" "b" "d"
    ⟨"https", "example.com", "", ""⟩ reqVHExample false
    (by rfl) (by decide) (by decide) (by rfl)).1 rfl

/-- Counterexample to C3 as stated: with endpoint
`https://b.example.com` (host already bucket-qualified), bucket `b` and
path style, the resolved request has host `b.example.com` *and* path
`/b`, so both conditions hold at once — "never both" is false. -/
theorem c3_counterexample :
    (createRequest "https://b.example.com" "b" true "d").toOption.map GoRequest.host
      = some "b.example.com"
    ∧ (createRequest "https://b.example.com" "b" true "d").toOption.map
        (fun r => r.url.path) = some "/b"
    ∧ goHasPrefix "b.example.com" "b." = true
    ∧ goHasPrefix "/b" "/b" = true := by
  refine ⟨by rfl, by rfl, by decide, by decide⟩

/-- C4 (amended): the request builder `createRequest` implements path
style with the bucket in the path — resolved host is the bare cleaned
endpoint host and the path is `"/" ++ bucket` — but the
provider-template resolver `applyAddressingStyle` prepends
`bucket ++ "/"` to the entire host-and-path part of the URL, so its
output parses with the *bucket* as the host component and the original
endpoint host inside the path.  The two implementations therefore do
not produce the same shape, refuting the claim for
`applyAddressingStyle`. -/
theorem c4_path_style_shapes (host bucket dateHeader : String)
    (hh : '/' ∉ host.data) (hcl : ':' ∉ host.data) (hb : '/' ∉ bucket.data) :
    createRequest ("https://" ++ host) bucket true dateHeader
      = .ok ⟨"HEAD", ⟨"https", host, "/" ++ bucket, ""⟩, host,
          [("Host", host), ("User-Agent", "s3-bucket-tester/1.0"), ("Date", dateHeader)]⟩
    ∧ applyAddressingStyle true bucket ("https://" ++ host)
        = "https://" ++ bucket ++ "/" ++ host
    ∧ urlParse ("https://" ++ bucket ++ "/" ++ host)
        = .ok ⟨"https", bucket, "/" ++ host, ""⟩ := by
  have hallh : ∀ x ∈ host.data, (fun c => decide (c ≠ '/')) x = true :=
    fun x hx => by simpa using fun (he : x = '/') => hh (he ▸ hx)
  have hu : urlParse ("https://" ++ host) = .ok ⟨"https", host, "", ""⟩ := by
    rw [show ("https://" : String) ++ host = "https" ++ "://" ++ host from rfl]
    rw [urlParse_build (by decide) (by decide)]
    rw [show host.data.takeWhile (· ≠ '/') = host.data from
          List.takeWhile_eq_self_iff.mpr hallh,
        show host.data.dropWhile (· ≠ '/') = [] from
          List.dropWhile_eq_nil_iff.mpr hallh]
  have hch : cleanHost host "https" = host := cleanHost_no_colon _ hcl
  refine ⟨?_, ?_, ?_⟩
  · rw [createRequest_shape bucket true dateHeader hu
      (show ("https" : String) ≠ "" by decide) hb]
    dsimp only
    rw [hch]
    rfl
  · unfold applyAddressingStyle applyAddressingStyleL
    rw [show ("https://" ++ host).data = "https".data ++ (sepL ++ host.data) from rfl]
    rw [goContainsL_append_sepL]
    simp only [if_true]
    rw [goSplitSep_parts (by decide) (goContainsL_sepL_false_of_no_slash hh)]
    have hnp : (bucket.data ++ ['/']).isPrefixOf host.data = false := by
      cases h : (bucket.data ++ ['/']).isPrefixOf host.data with
      | false => rfl
      | true => exact absurd (mem_of_isPrefixOf h (by simp)) hh
    dsimp only
    rw [hnp]
    simp only [Bool.not_false, if_true]
    apply String.ext
    simp only [string_data_append, List.append_assoc]
    rfl
  · have hre : "https://" ++ bucket ++ "/" ++ host
        = "https" ++ "://" ++ (bucket ++ "/" ++ host) := by
      apply String.ext
      simp only [string_data_append, List.append_assoc]
      rfl
    rw [hre, urlParse_build (by decide) (by decide)]
    have hdata : (bucket ++ "/" ++ host).data = bucket.data ++ '/' :: host.data := by
      rw [string_data_append, string_data_append, List.append_assoc]
      rfl
    rw [show (bucket ++ "/" ++ host).data.takeWhile (· ≠ '/') = bucket.data by
          rw [hdata]
          exact takeWhile_append_stop _
            (fun x hx => by simpa using fun (he : x = '/') => hb (he ▸ hx)) (by simp),
        show (bucket ++ "/" ++ host).data.dropWhile (· ≠ '/') = '/' :: host.data by
          rw [hdata]
          exact dropWhile_append_stop _
            (fun x hx => by simpa using fun (he : x = '/') => hb (he ▸ hx)) (by simp)]
    rfl

/-- Witness for C4: the two shapes at host `s3.example.com`, bucket
`b`. -/
theorem c4_path_style_shapes_witness :
    applyAddressingStyle true "b" ("https://" ++ "s3.example.com")
      = "https://" ++ "b" ++ "/" ++ "s3.example.com"
    ∧ urlParse ("https://" ++ "b" ++ "/" ++ "s3.example.com")
      = .ok ⟨"https", "b", "/" ++ "s3.example.com", ""⟩ := by
  obtain ⟨-, h2, h3⟩ := c4_path_style_shapes "s3.example.com" "b" "d"
    (by decide) (by decide) (by decide)
  exact ⟨h2, h3⟩

/-- Counterexample to C4 as stated: resolving
`https://s3.us-east-1.amazonaws.com` with bucket `mybucket` in path
style through `applyAddressingStyle` yields a URL whose host component
is `mybucket` (the bucket was inserted into the host, not the path)
and whose path does not start with `/mybucket`, while `createRequest`
yields host `s3.us-east-1.amazonaws.com` and path `/mybucket` — the two
implementations disagree. -/
theorem c4_counterexample :
    applyAddressingStyle true "mybucket" "https://s3.us-east-1.amazonaws.com"
      = "https://mybucket/s3.us-east-1.amazonaws.com"
    ∧ urlParse (applyAddressingStyle true "mybucket" "https://s3.us-east-1.amazonaws.com")
      = .ok ⟨"https", "mybucket", "/s3.us-east-1.amazonaws.com", ""⟩
    ∧ (createRequest "https://s3.us-east-1.amazonaws.com" "mybucket" true "d").toOption.map
        (fun r => (r.host, r.url.path))
      = some ("s3.us-east-1.amazonaws.com", "/mybucket")
    ∧ goHasPrefix "/s3.us-east-1.amazonaws.com" "/mybucket" = false
    ∧ ("mybucket" : String) ≠ "s3.us-east-1.amazonaws.com" := by
  have h1 : applyAddressingStyle true "mybucket" "https://s3.us-east-1.amazonaws.com"
      = "https://mybucket/s3.us-east-1.amazonaws.com" := by
    simp [applyAddressingStyle, applyAddressingStyleL, goSplitSep, sepL, goContainsL]
    decide
  refine ⟨h1, ?_, by rfl, by decide, by decide⟩
  rw [h1]
  rfl

/-! ## Idempotence of `applyAddressingStyle` -/

/-- `stripEndpoint` is the identity on slash-free strings. -/
theorem stripEndpoint_of_no_slash {r : List Char} (h : '/' ∉ r) : stripEndpoint r = r := by
  have h1 : ("http://".data).isPrefixOf r = false := by
    cases hp : ("http://".data).isPrefixOf r with
    | false => rfl
    | true => exact absurd (mem_of_isPrefixOf hp (by decide)) h
  have h2 : ("https://".data).isPrefixOf r = false := by
    cases hp : ("https://".data).isPrefixOf r with
    | false => rfl
    | true => exact absurd (mem_of_isPrefixOf hp (by decide)) h
  simp only [stripEndpoint]
  rw [show goTrimPrefixL r "http://".data = r by unfold goTrimPrefixL; rw [h1]; simp]
  rw [show goTrimPrefixL r "https://".data = r by unfold goTrimPrefixL; rw [h2]; simp]
  exact List.takeWhile_eq_self_iff.mpr
    (fun x hx => by simpa using fun (he : x = '/') => h (he ▸ hx))

/-- The fall-through output of the resolver is a fixed point of the
resolver: it has no slash, hence no scheme separator, so a second
application falls through again and strips nothing. -/
theorem applyL_strip_fix (ps : Bool) (b e : List Char) :
    applyAddressingStyleL ps b (stripEndpoint e) = stripEndpoint e := by
  have hns := stripEndpoint_no_slash e
  have hcont : goContainsL (stripEndpoint e) sepL = false :=
    goContainsL_sepL_false_of_no_slash hns
  unfold applyAddressingStyleL
  rw [hcont]
  simp only [Bool.false_eq_true, if_false]
  exact stripEndpoint_of_no_slash hns

/-- A main-branch output `p ++ "://" ++ nh` whose host-path part `nh`
already carries the style prefix is a fixed point of the resolver. -/
theorem applyL_fixed_main (ps : Bool) (b p nh : List Char)
    (hp : goContainsL p sepL = false) (hnh : goContainsL nh sepL = false)
    (hpref : (if ps then (b ++ ['/']).isPrefixOf nh else (b ++ ['.']).isPrefixOf nh) = true) :
    applyAddressingStyleL ps b (p ++ (sepL ++ nh)) = p ++ (sepL ++ nh) := by
  unfold applyAddressingStyleL
  rw [goContainsL_append_sepL]
  simp only [if_true]
  rw [goSplitSep_parts hp hnh]
  cases ps with
  | true =>
    simp only [if_true] at hpref
    dsimp only
    rw [hpref]
    simp [List.append_assoc]
  | false =>
    simp only [Bool.false_eq_true, if_false] at hpref
    dsimp only
    rw [hpref]
    simp [List.append_assoc]

/-- Core of C2: `applyAddressingStyleL` is idempotent for every bucket
that contains no `':'` (buckets never do), for both styles and all
endpoints. -/
theorem applyAddressingStyleL_idem (ps : Bool) (b e : List Char) (hb : ':' ∉ b) :
    applyAddressingStyleL ps b (applyAddressingStyleL ps b e)
      = applyAddressingStyleL ps b e := by
  by_cases hcont : goContainsL e sepL = true
  · match hsplit : goSplitSep e with
    | [] => exact absurd hsplit (goSplitSep_ne_nil e)
    | [q] =>
      obtain ⟨-, hqf⟩ := goSplitSep_single_inv hsplit
      rw [hqf] at hcont
      exact absurd hcont (by simp)
    | [p, hp] =>
      obtain ⟨he, hfp, hfh⟩ := goSplitSep_pair_inv hsplit
      cases ps with
      | true =>
        by_cases hpre : (b ++ ['/']).isPrefixOf hp = true
        · have h1 : applyAddressingStyleL true b e = p ++ (sepL ++ hp) := by
            unfold applyAddressingStyleL
            rw [if_pos hcont, hsplit]
            dsimp only
            rw [hpre]
            simp [List.append_assoc]
          rw [h1]
          exact applyL_fixed_main true b p hp hfp hfh (by simpa using hpre)
        · have hpre2 : (b ++ ['/']).isPrefixOf hp = false := by
            cases hx : (b ++ ['/']).isPrefixOf hp with
            | false => rfl
            | true => exact absurd hx hpre
          have h1 : applyAddressingStyleL true b e = p ++ (sepL ++ (b ++ '/' :: hp)) := by
            unfold applyAddressingStyleL
            rw [if_pos hcont, hsplit]
            dsimp only
            rw [hpre2]
            simp [List.append_assoc]
          rw [h1]
          refine applyL_fixed_main true b p (b ++ '/' :: hp) hfp
            (goContainsL_block_cons hb (by decide) hfh) ?_
          simp only [if_true]
          rw [show b ++ '/' :: hp = (b ++ ['/']) ++ hp by simp]
          exact isPrefixOf_self_append _ _
      | false =>
        by_cases hpre : (b ++ ['.']).isPrefixOf hp = true
        · have h1 : applyAddressingStyleL false b e = p ++ (sepL ++ hp) := by
            unfold applyAddressingStyleL
            rw [if_pos hcont, hsplit]
            dsimp only
            rw [hpre]
            simp [List.append_assoc]
          rw [h1]
          exact applyL_fixed_main false b p hp hfp hfh (by simpa using hpre)
        · have hpre2 : (b ++ ['.']).isPrefixOf hp = false := by
            cases hx : (b ++ ['.']).isPrefixOf hp with
            | false => rfl
            | true => exact absurd hx hpre
          have h1 : applyAddressingStyleL false b e = p ++ (sepL ++ (b ++ '.' :: hp)) := by
            unfold applyAddressingStyleL
            rw [if_pos hcont, hsplit]
            dsimp only
            rw [hpre2]
            simp [List.append_assoc]
          rw [h1]
          refine applyL_fixed_main false b p (b ++ '.' :: hp) hfp
            (goContainsL_block_cons hb (by decide) hfh) ?_
          simp only [Bool.false_eq_true, if_false]
          rw [show b ++ '.' :: hp = (b ++ ['.']) ++ hp by simp]
          exact isPrefixOf_self_append _ _
    | p :: q :: r :: rest =>
      have h1 : applyAddressingStyleL ps b e = stripEndpoint e := by
        unfold applyAddressingStyleL
        rw [if_pos hcont, hsplit]
      rw [h1]
      exact applyL_strip_fix ps b e
  · have hcf : goContainsL e sepL = false := by simpa using hcont
    have h1 : applyAddressingStyleL ps b e = stripEndpoint e := by
      unfold applyAddressingStyleL
      rw [hcf]
      simp
    rw [h1]
    exact applyL_strip_fix ps b e

/-- C2 (amended): the provider-template resolver
`applyAddressingStyle` is idempotent for both styles (for any bucket
without `':'`): resolving an already-resolved endpoint again is a
no-op, because the resolver recognises a host-path part that already
starts with `bucket ++ "/"` (path style) or `bucket ++ "."`
(virtual-hosted).  The original claim fails for the request builder
`createRequest` and for path-style endpoints whose *path* already
starts with `/bucket` — see the counterexample. -/
theorem c2_resolution_idempotent (ps : Bool) (bucket endpoint : String)
    (hb : ':' ∉ bucket.data) :
    applyAddressingStyle ps bucket (applyAddressingStyle ps bucket endpoint)
      = applyAddressingStyle ps bucket endpoint :=
  congrArg String.mk (applyAddressingStyleL_idem ps bucket.data endpoint.data hb)

/-- Witness for C2: idempotence at a concrete endpoint, together with
the concrete value of the first resolution. -/
theorem c2_resolution_idempotent_witness :
    applyAddressingStyle true "b" (applyAddressingStyle true "b" "https://example.com")
      = applyAddressingStyle true "b" "https://example.com"
    ∧ applyAddressingStyle true "b" "https://example.com" = "https://b/example.com" := by
  refine ⟨c2_resolution_idempotent true "b" "https://example.com" (by decide), ?_⟩
  simp [applyAddressingStyle, applyAddressingStyleL, goSplitSep, sepL, goContainsL]
  decide

/-- Counterexample to C2 as stated: re-resolving through the request
builder `createRequest` prepends the bucket a second time — endpoint
`https://b.example.com` (host already starts with `b.`) resolves under
virtual-hosted style to host `b.b.example.com` — and the resolver
`applyAddressingStyle` does prepend the bucket to an endpoint whose
path already starts with `/b` (its guard inspects the host-path
string, not the path). -/
theorem c2_counterexample :
    (createRequest "https://b.example.com" "b" false "d").toOption.map GoRequest.host
      = some "b.b.example.com"
    ∧ goHasPrefix "b.example.com" "b." = true
    ∧ ("b.b.example.com" : String) ≠ "b.example.com"
    ∧ urlParse "https://host/b" = .ok ⟨"https", "host", "/b", ""⟩
    ∧ applyAddressingStyle true "b" "https://host/b" = "https://b/host/b" := by
  refine ⟨by rfl, by decide, by decide, by rfl, ?_⟩
  simp [applyAddressingStyle, applyAddressingStyleL, goSplitSep, sepL, goContainsL]
  decide

end S3Tester
